import Mathlib

/-!
Verification of the `tech-debt-estimator` metrics and aggregation engine
(`tech_debt_estimator/metrics.py` and `tech_debt_estimator/analyzer.py`)
against its natural-language specification.

The filesystem is shallowly embedded: a directory walk is a list of
`PyFile` records (basename, path relative to the repository root, the
file's lines, and modification metadata), mirroring what `os.walk`
hands to each scanner.  Every scanner is translated line by line from
the Python source.  Python strings are modelled as Lean `String`s with
all character-level processing performed on `List Char` (Python's
`.strip()`, `in`, `.startswith`, `.endswith`, `.lower()`, `.replace()`
are modelled by executable char-list functions below).  `readlines()`
keeps a trailing newline on each line; none of the scanners can observe
it (every use either strips the line or matches a prefix pattern that
cannot reach the final newline), so lines are stored without it.
-/

/-- Model of Python's whitespace class for `str.strip()` and the regex
class `\s` (ASCII fragment: space, tab, newline, carriage return,
vertical tab, form feed). -/
def isPySpace (c : Char) : Bool :=
  c == ' ' || c == '\t' || c == '\n' || c == '\r' || c == '\x0b' || c == '\x0c'

/-- Model of the regex class `\w` (ASCII fragment): letters, digits, underscore. -/
def isWordChar (c : Char) : Bool :=
  c.isAlphanum || c == '_'

/-- Model of Python's `str.strip()` on a list of characters. -/
def trimChars (s : List Char) : List Char :=
  ((s.dropWhile isPySpace).reverse.dropWhile isPySpace).reverse

/-- Model of Python's substring test `pat in s`: does `pat` occur as a
contiguous run inside `s`?  Structural recursion keeps it kernel-evaluable. -/
def containsSub (pat : List Char) : List Char → Bool
  | [] => pat.isPrefixOf []
  | a :: t => pat.isPrefixOf (a :: t) || containsSub pat t

/-- Model of Python's `str.endswith` (and of the regexes `\.py$`,
`\.(js|ts|jsx|tsx)$` used through `re.search`). -/
def endsWithS (s suf : String) : Bool :=
  suf.toList.isSuffixOf s.toList

/-- Model of Python's `str.lower()` (ASCII fragment, which is all the
scanners compare against). -/
def lowerChars (s : String) : List Char :=
  s.toList.map Char.toLower

/-- The apostrophe character, written by code point. -/
def squote : Char := Char.ofNat 39

/-- The characters of the Python triple double-quote delimiter. -/
def tripleDQ : List Char := ['"', '"', '"']

/-- The characters of the Python triple single-quote delimiter. -/
def tripleSQ : List Char := [squote, squote, squote]

/-- Worker for `removeAll`, structurally recursive on a fuel argument.
Every step consumes at least one character of the remaining input, so
fuel equal to the input length is never exhausted. -/
def removeAllAux (pat : List Char) : Nat → List Char → List Char
  | _, [] => []
  | 0, l => l
  | fuel + 1, a :: t =>
    if pat ≠ [] ∧ pat.isPrefixOf (a :: t) then
      removeAllAux pat fuel (t.drop (pat.length - 1))
    else
      a :: removeAllAux pat fuel t

/-- Model of Python's `str.replace(old, '')` (left-to-right,
non-overlapping removal of every occurrence of `old`). -/
def removeAll (pat : List Char) (s : List Char) : List Char :=
  removeAllAux pat s.length s

-- ## metrics.py

/-- Source function `metrics.is_code_file`: the basename matches `\.py$` or
`\.(js|ts|jsx|tsx)$`. -/
def is_code_file (name : String) : Bool :=
  endsWithS name ".py" || endsWithS name ".js" || endsWithS name ".ts" ||
    endsWithS name ".jsx" || endsWithS name ".tsx"

/-- One file yielded by the directory walk.  `lines` is `none` when the
file cannot be read (the scanners' `except` branches); `mtime` is the
modification time in days, `mtimeStr` its `%Y-%m-%d` rendering. -/
structure PyFile where
  name : String
  relPath : String
  lines : Option (List String)
  mtime : Int
  mtimeStr : String
deriving DecidableEq

/-- One iteration of the line loop of `metrics.get_lines_of_code`:
state is (inside-multiline flag, code-line count). -/
def locStep (st : Bool × Nat) (line : String) : Bool × Nat :=
  let s := trimChars line.toList
  if s.isEmpty then st
  else if containsSub tripleDQ s || containsSub tripleSQ s then (!st.1, st.2)
  else if st.1 then st
  else if ['#'].isPrefixOf s || ['/', '/'].isPrefixOf s then st
  else (st.1, st.2 + 1)

/-- Source function `metrics.get_lines_of_code`: count of non-blank, non-comment lines,
with the single-flag multiline-string handling.  An unreadable file
counts zero lines (the function's `except` branch). -/
def get_lines_of_code : Option (List String) → Nat
  | none => 0
  | some ls => (ls.foldl locStep (false, 0)).2

/-- Stable descending sort by a natural-number key: the model of
Python's `sorted(key=..., reverse=True)` (Python's sort is stable and
`reverse=True` preserves stability). -/
def sortByKeyDesc (key : α → Nat) (l : List α) : List α :=
  List.insertionSort (fun a b => key b ≤ key a) l

/-- Source function `metrics.find_complex_files`: every walked code file whose
line count exceeds `threshold`, as `(relative path, count)` pairs,
sorted descending by count. -/
def find_complex_files (files : List PyFile) (threshold : Nat) : List (String × Nat) :=
  sortByKeyDesc (fun p => p.2)
    (((files.filter (fun f => is_code_file f.name)).map
        (fun f => (f.relPath, get_lines_of_code f.lines))).filter
      (fun p => decide (threshold < p.2)))

/-- Source function `metrics.hash_line_block`, idealized: the source hashes the
newline-join of the stripped non-blank lines of the block with MD5; a
collision-resistant digest is modelled by the preimage itself (two
blocks collide exactly when that joined text is equal). -/
def hash_line_block (block : List String) : String :=
  String.intercalate "\n"
    (((block.map (fun l => trimChars l.toList)).filter (fun l => !l.isEmpty)).map
      (fun l => String.mk l))

/-- One duplicate group reported by `metrics.find_duplicate_blocks`:
`{hash, count, locations}` with 1-based starting line numbers. -/
structure DupGroup where
  hash : String
  count : Nat
  locations : List (String × Nat)
deriving DecidableEq

/-- Model of accumulating into a `defaultdict(list)`: keys keep
first-insertion order, each key's occurrence list keeps append order. -/
def addOcc (acc : List (String × List (String × Nat))) (kv : String × (String × Nat)) :
    List (String × List (String × Nat)) :=
  if acc.any (fun p => p.1 == kv.1) then
    acc.map (fun p => if p.1 == kv.1 then (p.1, p.2 ++ [kv.2]) else p)
  else
    acc ++ [(kv.1, [kv.2])]

/-- All `(fingerprint, (relative path, 1-based start line))` entries a
single readable file contributes: one sliding window of `blockSize`
raw lines per starting index (`range(len(lines) - block_size + 1)`). -/
def fileBlocks (blockSize : Nat) (f : PyFile) : List (String × (String × Nat)) :=
  match f.lines with
  | none => []
  | some ls =>
    (List.range (ls.length + 1 - blockSize)).map
      (fun i => (hash_line_block ((ls.drop i).take blockSize), (f.relPath, i + 1)))

/-- The unsorted duplicate groups of `metrics.find_duplicate_blocks`:
index every window of `blockSize` consecutive lines of every walked
code file by fingerprint, then keep the fingerprints with at least two
occurrences, in first-insertion order. -/
def dupGroupsAll (files : List PyFile) (blockSize : Nat) : List DupGroup :=
  (((((files.filter (fun f => is_code_file f.name)).flatMap (fileBlocks blockSize)).foldl
    addOcc []).map (fun p => DupGroup.mk p.1 p.2.length p.2)).filter
    (fun g => decide (1 < g.count)))

/-- Source function `metrics.find_duplicate_blocks`: the duplicate groups sorted
descending by occurrence count, first 20 only. -/
def find_duplicate_blocks (files : List PyFile) (blockSize : Nat) : List DupGroup :=
  (sortByKeyDesc (fun g => g.count) (dupGroupsAll files blockSize)).take 20

/-- Stable ascending sort of strings: the model of Python's
`sorted(list_of_str)` (lexicographic on code points). -/
def sortStrings (l : List String) : List String :=
  List.insertionSort (fun a b => a ≤ b) l

/-- Stable ascending sort of `(path, date-string)` pairs by the date
string: the model of `sorted(stale_files, key=lambda x: x[1])`. -/
def sortByDate (l : List (String × String)) : List (String × String) :=
  List.insertionSort (fun a b => a.2 ≤ b.2) l

/-- Source function `metrics.find_stale_files`: walked code files whose modification
time precedes `now - 30*months` days, as `(relative path, date string)`
pairs sorted ascending by the date string. -/
def find_stale_files (files : List PyFile) (now : Int) (months : Nat) : List (String × String) :=
  sortByDate
    ((files.filter
        (fun f => is_code_file f.name && decide (f.mtime < now - 30 * (months : Int)))).map
      (fun f => (f.relPath, f.mtimeStr)))

/-- Model of `os.path.join(repo_path, rel)` for the paths produced by
`os.walk(repo_path)`: the walk roots all start with `repo_path`, so the
full path of a walked file is the repository path followed by a
separator and the root-relative path. -/
def pathJoin (repoPath rel : String) : String :=
  repoPath ++ "/" ++ rel

/-- The test/source partition rule of `metrics.find_untested_code`:
`'test' in filepath.lower() or 'spec' in filepath.lower()`, applied to
the full (root-prefixed) path. -/
def isTestPath (full : String) : Bool :=
  containsSub "test".toList (lowerChars full) || containsSub "spec".toList (lowerChars full)

/-- The walked code files. -/
def codeFilesOf (files : List PyFile) : List PyFile :=
  files.filter (fun f => is_code_file f.name)

/-- Relative paths of the walked code files classified as test files. -/
def testRelsOf (repoPath : String) (files : List PyFile) : List String :=
  ((codeFilesOf files).filter (fun f => isTestPath (pathJoin repoPath f.relPath))).map
    (fun f => f.relPath)

/-- Relative paths of the walked code files classified as source files. -/
def sourceRelsOf (repoPath : String) (files : List PyFile) : List String :=
  ((codeFilesOf files).filter (fun f => !isTestPath (pathJoin repoPath f.relPath))).map
    (fun f => f.relPath)

/-- The loose match rule of `find_untested_code`: some test file's path
contains the source path with `.py` (or `.js`) removed. -/
def hasTestMatch (tests : List String) (s : String) : Bool :=
  tests.any (fun t =>
    containsSub (removeAll ".py".toList s.toList) t.toList ||
      containsSub (removeAll ".js".toList s.toList) t.toList)

/-- Source function `metrics.find_untested_code`: walked code files are partitioned
into test files (full path contains `test` or `spec`, case-insensitive)
and source files; a source file is untested when no test file's path
matches it; the untested relative paths are returned sorted ascending. -/
def find_untested_code (repoPath : String) (files : List PyFile) : List String :=
  sortStrings ((sourceRelsOf repoPath files).filter
    (fun s => !hasTestMatch (testRelsOf repoPath files) s))

/-- Model of `python_def_pattern.match`, the regex
`^(\s*)(def|class)\s+(\w+)\s*[\(:]`: leading whitespace, the keyword
`def` or `class`, at least one whitespace, an identifier (group 3),
optional whitespace, then `(` or `:`.  Returns the identifier. -/
def parseDecl (cs : List Char) : Option String :=
  let rest := cs.dropWhile isPySpace
  let kw : Option (List Char) :=
    if ['d', 'e', 'f'].isPrefixOf rest then some (rest.drop 3)
    else if ['c', 'l', 'a', 's', 's'].isPrefixOf rest then some (rest.drop 5)
    else none
  match kw with
  | none => none
  | some r =>
    if (r.takeWhile isPySpace).isEmpty then none
    else
      let r2 := r.dropWhile isPySpace
      let ident := r2.takeWhile isWordChar
      if ident.isEmpty then none
      else
        match (r2.dropWhile isWordChar).dropWhile isPySpace with
        | c :: _ => if c == '(' || c == ':' then some (String.mk ident) else none
        | [] => none

/-- Model of `docstring_pattern.match`, the regex exactly as written in
the source: `^\s*["\']{"3}|^\s*["\']{\'{3}`.  In Python `{"3}` is not a
valid quantifier, so it is the four literal characters brace, double
quote, `3`, brace, and the first alternative is: whitespace, one quote
character, then literally `{"3}`.  In the second alternative the `{`
after the character class is likewise literal and `\'{3}` is three
apostrophes, giving: whitespace, one quote character, `{`, `'''`. -/
def docstringMatch (cs : List Char) : Bool :=
  match cs.dropWhile isPySpace with
  | q :: rest =>
    (q == '"' || q == squote) &&
      (rest.take 4 == ['{', '"', '3', '}'] || rest.take 4 == ['{', squote, squote, squote])
  | [] => false

/-- The per-file loop of `metrics.find_undocumented_code`: for each
line matching the declaration pattern, look at the next four lines,
skip blank ones, and test the first non-blank one against
`docstring_pattern`; record the identifier when the test fails. -/
def fileUndoc (lines : List String) : List String :=
  lines.enum.filterMap (fun p =>
    match parseDecl p.2.toList with
    | none => none
    | some name =>
      let window := (lines.drop (p.1 + 1)).take 4
      let hasDoc :=
        match window.find? (fun l => !(trimChars l.toList).isEmpty) with
        | some l => docstringMatch l.toList
        | none => false
      if hasDoc then none else some name)

/-- Source function `metrics.find_undocumented_code`: mapping (as an insertion-ordered
association list) from relative path to the undocumented identifiers of
that file, restricted to `.py` files; files with no findings (or that
cannot be read) contribute no entry. -/
def find_undocumented_code (files : List PyFile) : List (String × List String) :=
  files.filterMap (fun f =>
    if endsWithS f.name ".py" then
      match f.lines with
      | none => none
      | some ls =>
        let u := fileUndoc ls
        if u.isEmpty then none else some (f.relPath, u)
    else none)

/-- The manifest/lock state of the repository root: the association
list of filenames that exist directly under the root, each with its age
in days when `getmtime` succeeds (`none` models a raised `OSError`). -/
def DepFs := List (String × Option Int)

/-- Existence/age lookup for one checked filename. -/
def lookupDep (dep : DepFs) (n : String) : Option (Option Int) :=
  (dep.find? (fun p => p.1 == n)).map (fun p => p.2)

/-- Result record of `metrics.analyze_dependency_age`
(`deprecated_packages` is omitted: the source always leaves it `[]`). -/
structure DepResult where
  has_requirements : Bool
  has_lock_file : Bool
  lock_file_age_days : Option Int
deriving DecidableEq

/-- The fixed filename check order of `metrics.analyze_dependency_age`. -/
def depNames : List String :=
  ["requirements.txt", "setup.py", "pyproject.toml", "Pipfile.lock",
   "package-lock.json", "yarn.lock"]

/-- One iteration of the filename loop of `analyze_dependency_age`:
when the file exists, `has_lock_file` is overwritten with
`'lock' in fname`, `has_requirements` is set when the name contains
`requirements`, `pyproject` or `setup`, and the running minimum age is
updated when `getmtime` succeeds. -/
def depStep (dep : DepFs) (r : DepResult) (n : String) : DepResult :=
  match lookupDep dep n with
  | none => r
  | some age? =>
    let r1 : DepResult :=
      { has_lock_file := containsSub "lock".toList n.toList
        has_requirements := r.has_requirements ||
          containsSub "requirements".toList n.toList ||
          containsSub "pyproject".toList n.toList ||
          containsSub "setup".toList n.toList
        lock_file_age_days := r.lock_file_age_days }
    match age? with
    | none => r1
    | some a =>
      { r1 with
        lock_file_age_days :=
          match r1.lock_file_age_days with
          | none => some a
          | some m => if a < m then some a else some m }

/-- Source function `metrics.analyze_dependency_age`: fold the filename check order
over the initial all-false/none record. -/
def analyze_dependency_age (dep : DepFs) : DepResult :=
  depNames.foldl (depStep dep) ⟨false, false, none⟩

-- ## analyzer.py

/-- Source enum `analyzer.Severity`: ordinal enumeration of debt severity levels. -/
inductive Severity where
  | CRITICAL
  | HIGH
  | MEDIUM
  | LOW
deriving DecidableEq

/-- The `Enum` ordinal of a severity level (`Severity.CRITICAL.value == 4`, …). -/
def Severity.value : Severity → Nat
  | .CRITICAL => 4
  | .HIGH => 3
  | .MEDIUM => 2
  | .LOW => 1

/-- The category-specific `details` mapping of a `DebtCategory`: five
categories store named counts, the dependency category stores the
`analyze_dependency_age` record. -/
inductive CatDetails where
  | counts : List (String × Nat) → CatDetails
  | dep : DepResult → CatDetails
deriving DecidableEq

/-- Source dataclass `analyzer.DebtCategory`.  `estimated_hours` is a Python number
(int or float); every value the analyzer produces is a multiple of 1/2,
exactly representable, so it is modelled as a rational. -/
structure DebtCategory where
  name : String
  estimated_hours : ℚ
  severity : Severity
  affected_files : List String
  recommendations : List String
  details : CatDetails
deriving DecidableEq

/-- Source dataclass `analyzer.DebtResult`.  `categories` is a Python dict modelled as
an insertion-ordered association list. -/
structure DebtResult where
  repo_path : String
  total_hours : ℚ
  categories : List (String × DebtCategory)
  analyzed_at : String
  summary : String
deriving DecidableEq

/-- The composite sort key of `DebtResult.sorted_categories`:
`(severity ordinal, estimated hours)`. -/
def catKey (c : DebtCategory) : Nat × ℚ :=
  (c.severity.value, c.estimated_hours)

/-- Lexicographic order on the composite key, the model of Python's
tuple comparison. -/
def lexLe (p q : Nat × ℚ) : Prop :=
  p.1 < q.1 ∨ (p.1 = q.1 ∧ p.2 ≤ q.2)

instance (p q : Nat × ℚ) : Decidable (lexLe p q) := by
  unfold lexLe
  exact inferInstance

/-- The comparison used by `sorted_categories`: `a` may precede `b`
when `a`'s key is at least `b`'s (stable descending sort on the key). -/
def catGe (a b : String × DebtCategory) : Prop :=
  lexLe (catKey b.2) (catKey a.2)

instance (a b : String × DebtCategory) : Decidable (catGe a b) := by
  unfold catGe
  exact inferInstance

/-- Source method `DebtResult.sorted_categories`:
`sorted(self.categories.items(), key=(severity.value, estimated_hours), reverse=True)`. -/
def DebtResult.sorted_categories (r : DebtResult) : List (String × DebtCategory) :=
  List.insertionSort catGe r.categories

/-- Model of the f-string `f"{x} ..."` interpolation of a natural number. -/
def natStr (n : Nat) : String := toString n

/-- Model of the f-string `f"{x} ..."` interpolation of an integer. -/
def intStr (n : Int) : String := toString n

/-- Source method `TechnicalDebtAnalyzer._analyze_complexity`. -/
def analyzeComplexity (files : List PyFile) : DebtCategory :=
  let complex_files := find_complex_files files 500
  { name := "Complexity Debt"
    estimated_hours := (complex_files.length : ℚ) * 10
    severity :=
      if complex_files.length > 20 then .CRITICAL
      else if complex_files.length > 10 then .HIGH
      else if complex_files.length > 5 then .MEDIUM
      else .LOW
    affected_files := (complex_files.take 10).map
      (fun p => p.1 ++ " (" ++ natStr p.2 ++ " lines)")
    recommendations :=
      ["Refactor " ++ natStr complex_files.length ++ " overly complex files (>500 LOC)",
       "Break down large functions into smaller units",
       "Extract utility functions and helper methods",
       "Consider splitting large modules into submodules"]
    details := .counts [("file_count", complex_files.length)] }

/-- Source method `TechnicalDebtAnalyzer._analyze_duplication`. -/
def analyzeDuplication (files : List PyFile) : DebtCategory :=
  let duplicates := find_duplicate_blocks files 5
  let duplicate_count := duplicates.length
  let total_blocks := (duplicates.map (fun d => d.count)).sum
  { name := "Duplication Debt"
    estimated_hours := (duplicate_count : ℚ) * 3
    severity :=
      if duplicate_count > 30 then .CRITICAL
      else if duplicate_count > 15 then .HIGH
      else if duplicate_count > 5 then .MEDIUM
      else .LOW
    affected_files := ((duplicates.take 5).map
      (fun d => natStr ((d.locations.map (fun l => l.1)).dedup.length) ++ " files (" ++
        natStr d.count ++ " occurrences)")).take 5
    recommendations :=
      ["Extract " ++ natStr duplicate_count ++ " duplicated code blocks into shared utilities",
       "Implement DRY principle across codebase",
       "Use code generation or templates where applicable",
       "Regular duplication scanning in CI/CD"]
    details := .counts
      [("duplicate_blocks", duplicate_count), ("total_occurrences", total_blocks)] }

/-- Source method `TechnicalDebtAnalyzer._analyze_tests`. -/
def analyzeTests (repoPath : String) (files : List PyFile) : DebtCategory :=
  let untested_files := find_untested_code repoPath files
  { name := "Test Coverage Debt"
    estimated_hours := (untested_files.length : ℚ) * 4
    severity :=
      if untested_files.length > 50 then .CRITICAL
      else if untested_files.length > 25 then .HIGH
      else if untested_files.length > 10 then .MEDIUM
      else .LOW
    affected_files := untested_files.take 10
    recommendations :=
      ["Add tests for " ++ natStr untested_files.length ++ " untested source files",
       "Set minimum code coverage threshold (80%+)",
       "Implement test-driven development practices",
       "Add pre-commit hooks to check test coverage"]
    details := .counts [("untested_files", untested_files.length)] }

/-- Source method `TechnicalDebtAnalyzer._analyze_documentation`. -/
def analyzeDocumentation (files : List PyFile) : DebtCategory :=
  let undocumented := find_undocumented_code files
  let total_undocumented : Nat := (undocumented.map (fun p => p.2.length)).sum
  { name := "Documentation Debt"
    estimated_hours := (total_undocumented : ℚ) * (1 / 2)
    severity :=
      if total_undocumented > 100 then .CRITICAL
      else if total_undocumented > 50 then .HIGH
      else if total_undocumented > 20 then .MEDIUM
      else .LOW
    affected_files := (undocumented.take 5).map
      (fun p => p.1 ++ " (" ++ natStr p.2.length ++ " undocumented)")
    recommendations :=
      ["Add docstrings to " ++ natStr total_undocumented ++ " functions/classes",
       "Document public API endpoints",
       "Create architecture decision records (ADRs)",
       "Enforce documentation in code review process"]
    details := .counts [("undocumented_count", total_undocumented)] }

/-- Source method `TechnicalDebtAnalyzer._analyze_stale_code`. -/
def analyzeStaleCode (files : List PyFile) (now : Int) : DebtCategory :=
  let stale_files := find_stale_files files now 12
  { name := "Stale Code Debt"
    estimated_hours := (stale_files.length : ℚ) * 6
    severity :=
      if stale_files.length > 30 then .CRITICAL
      else if stale_files.length > 15 then .HIGH
      else if stale_files.length > 5 then .MEDIUM
      else .LOW
    affected_files := (stale_files.take 10).map
      (fun p => p.1 ++ " (last: " ++ p.2 ++ ")")
    recommendations :=
      ["Audit " ++ natStr stale_files.length ++ " stale code files",
       "Remove or archive dead code branches",
       "Consolidate overlapping functionality",
       "Establish code maintenance policy"]
    details := .counts [("stale_files", stale_files.length)] }

/-- Truthiness-guarded age comparison
`dep['lock_file_age_days'] and dep['lock_file_age_days'] > k`
(`None` and `0` are falsy). -/
def ageTruthyGT (age? : Option Int) (k : Int) : Bool :=
  match age? with
  | none => false
  | some a => !(a == 0) && decide (k < a)

/-- Source method `TechnicalDebtAnalyzer._analyze_dependencies`. -/
def analyzeDependencies (dep : DepFs) : DebtCategory :=
  let dep_analysis := analyze_dependency_age dep
  let baseSeverity : Severity :=
    if ageTruthyGT dep_analysis.lock_file_age_days 180 then .HIGH
    else if ageTruthyGT dep_analysis.lock_file_age_days 90 then .MEDIUM
    else .LOW
  { name := "Dependency Debt"
    estimated_hours := if dep_analysis.has_requirements then (5 : ℚ) else 5 + 3
    severity := if dep_analysis.has_requirements then baseSeverity else .CRITICAL
    affected_files :=
      (if dep_analysis.has_requirements then
        ["requirements.txt / setup.py / pyproject.toml"] else []) ++
      (if dep_analysis.has_lock_file then
        ["Lock files (" ++ intStr ((dep_analysis.lock_file_age_days).getD 0) ++ " days old)"]
       else [])
    recommendations :=
      ["Update all dependencies to latest stable versions",
       "Implement dependency audit process",
       "Use tools like Dependabot for automated updates",
       "Document breaking changes during dependency upgrades"]
    details := .dep dep_analysis }

/-- Model of the float formatting `f"{total_hours:.1f}"`: the analyzer's
totals are non-negative multiples of 1/2, for which rounding to one
decimal digit is exact. -/
def formatHours1 (q : ℚ) : String :=
  let n : Int := ⌊q * 10 + 1 / 2⌋
  intStr (n / 10) ++ "." ++ intStr (n % 10)

/-- Source method `TechnicalDebtAnalyzer._generate_summary`. -/
def generate_summary (categories : List (String × DebtCategory)) (total_hours : ℚ) : String :=
  let critical_count := (categories.filter (fun p => p.2.severity == .CRITICAL)).length
  let high_count := (categories.filter (fun p => p.2.severity == .HIGH)).length
  let base := "Total technical debt: " ++ formatHours1 total_hours ++ " developer-hours"
  let base := if critical_count > 0 then
    base ++ " (" ++ natStr critical_count ++ " CRITICAL areas)" else base
  if high_count > 0 then base ++ " (" ++ natStr high_count ++ " HIGH areas)" else base

/-- Source method `TechnicalDebtAnalyzer.analyze` on the outcome of the directory
walk: builds the six categories, sums their hours, and assembles the
`DebtResult`.  `path` is the absolute repository path, `now` the
current time (in days, used by the staleness cutoff; dependency ages
are already relative to it), `ts` the `datetime.now().isoformat()`
timestamp recorded in the result. -/
def analyzeFull (path : String) (files : List PyFile) (dep : DepFs) (now : Int)
    (ts : String) : DebtResult :=
  let categories : List (String × DebtCategory) :=
    [("Complexity Debt", analyzeComplexity files),
     ("Duplication Debt", analyzeDuplication files),
     ("Test Coverage Debt", analyzeTests path files),
     ("Documentation Debt", analyzeDocumentation files),
     ("Stale Code Debt", analyzeStaleCode files now),
     ("Dependency Debt", analyzeDependencies dep)]
  let total_hours := (categories.map (fun p => p.2.estimated_hours)).sum
  { repo_path := path
    total_hours := total_hours
    categories := categories
    analyzed_at := ts
    summary := generate_summary categories total_hours }

/-- A repository path as `analyze` receives it.  `validDir` records
whether the path resolves to a readable directory; `files` and `dep`
are what the walk and the manifest probes would observe when it does. -/
structure Repo where
  path : String
  validDir : Bool
  files : List PyFile
  dep : DepFs

/-- What `os.walk` yields for the repository: nothing at all when the
path does not resolve to a readable directory (`os.walk` swallows the
error through its default `onerror=None`), the walked files otherwise. -/
def walkFiles (r : Repo) : List PyFile :=
  if r.validDir then r.files else []

/-- What the `os.path.exists` probes of `analyze_dependency_age` see:
no manifest exists under an unresolvable path. -/
def depView (r : Repo) : DepFs :=
  if r.validDir then r.dep else []

/-- Source method `TechnicalDebtAnalyzer.analyze` with its error behaviour made
explicit.  The method contains no `raise`; every operation that can
throw is harmless here: `os.path.abspath` on a `str` does not throw,
`os.walk` on an unresolvable path yields nothing (default
`onerror=None`), every per-file `open`/`getmtime` in the scanners sits
inside `try/except`, and `os.path.exists` returns `False`.  The call
therefore always returns a `DebtResult`. -/
def analyzeExc (r : Repo) (now : Int) (ts : String) : Except String DebtResult :=
  Except.ok (analyzeFull r.path (walkFiles r) (depView r) now ts)

instance : IsTotal (String × DebtCategory) catGe :=
  ⟨fun a b => by
    unfold catGe lexLe
    rcases lt_trichotomy (catKey b.2).1 (catKey a.2).1 with h | h | h
    · exact Or.inl (Or.inl h)
    · rcases le_total (catKey b.2).2 (catKey a.2).2 with h2 | h2
      · exact Or.inl (Or.inr ⟨h, h2⟩)
      · exact Or.inr (Or.inr ⟨h.symm, h2⟩)
    · exact Or.inr (Or.inl h)⟩

instance : IsTrans (String × DebtCategory) catGe :=
  ⟨fun _ _ _ h1 h2 => by
    unfold catGe lexLe at h1 h2 ⊢
    rcases h2 with h2 | ⟨h2, h2'⟩
    · rcases h1 with h1 | ⟨h1, _⟩
      · exact Or.inl (h2.trans h1)
      · exact Or.inl (h1 ▸ h2)
    · rcases h1 with h1 | ⟨h1, h1'⟩
      · exact Or.inl (h2 ▸ h1)
      · exact Or.inr ⟨h2.trans h1, h2'.trans h1'⟩⟩

-- ## Spec-side characterizations and concrete inputs

/-- The checked filenames that exist under the root, in check order. -/
def existingNames (dep : DepFs) : List String :=
  depNames.filter (fun n => (lookupDep dep n).isSome)

/-- The ages (in days) of the checked files that exist and whose
`getmtime` succeeds, in check order. -/
def agesOf (dep : DepFs) : List Int :=
  depNames.filterMap (fun n => (lookupDep dep n).bind (fun x => x))

/-- Does the last name of the list contain `lock` (`false` for an empty
list)? -/
def lockOfLast (l : List String) : Bool :=
  match l.getLast? with
  | some n => containsSub "lock".toList n.toList
  | none => false

/-- The running-minimum update of `analyze_dependency_age`:
`if age_days < result['lock_file_age_days']: ...` with a `None` start. -/
def updMin (acc : Option Int) (a : Int) : Option Int :=
  match acc with
  | none => some a
  | some m => if a < m then some a else some m

/-- A directory containing only `requirements.txt`, 10 days old. -/
def reqOnly : DepFs := [("requirements.txt", some 10)]

/-- A Python file whose declaration is immediately followed by a
docstring line. -/
def docOkFile : PyFile :=
  ⟨"doc_ok.py", "doc_ok.py",
   some ["def hello():", "    \"\"\"Say hello.\"\"\"", "    pass"], 0, "2024-01-01"⟩

/-- A repository path that does not resolve to a readable directory. -/
def invalidRepo : Repo := ⟨"/nonexistent", false, [], []⟩

/-- Two code files with the same code-line count (2 each). -/
def cxFiles : List PyFile :=
  [⟨"a.py", "a.py", some ["x = 1", "y = 2"], 0, "2024-01-01"⟩,
   ⟨"b.py", "b.py", some ["x = 1", "y = 2"], 0, "2024-01-01"⟩]

/-- A file consisting of a 3-line sequence repeated 5 times
consecutively (the spec's duplication example). -/
def dupExampleFile : PyFile :=
  ⟨"duplication.py", "duplication.py",
   some ["x = 1", "y = 2", "z = 3", "x = 1", "y = 2", "z = 3", "x = 1", "y = 2", "z = 3",
         "x = 1", "y = 2", "z = 3", "x = 1", "y = 2", "z = 3"], 0, "2024-01-01"⟩

/-- A category with the minimal composite key. -/
def catA : DebtCategory := ⟨"A", 0, .LOW, [], [], .counts []⟩

/-- A second category with the same composite key as `catA`. -/
def catB : DebtCategory := ⟨"B", 0, .LOW, [], [], .counts []⟩

/-- A result whose categories mapping was built in order `A`, `B`. -/
def resultAB : DebtResult := ⟨"/r", 0, [("A", catA), ("B", catB)], "t", ""⟩

/-- The same categories mapping built in order `B`, `A`. -/
def resultBA : DebtResult := ⟨"/r", 0, [("B", catB), ("A", catA)], "t", ""⟩

/-- A file outside any test directory, under a repository whose own
path contains `test`. -/
def plainFile : PyFile := ⟨"util.py", "util.py", some ["x = 1"], 0, "2024-01-01"⟩

-- ## Helper lemmas

/-- The relation `lexLe` is total. -/
theorem lexLe_total (p q : Nat × ℚ) : lexLe p q ∨ lexLe q p := by
  unfold lexLe
  rcases lt_trichotomy p.1 q.1 with h | h | h
  · exact Or.inl (Or.inl h)
  · rcases le_total p.2 q.2 with h2 | h2
    · exact Or.inl (Or.inr ⟨h, h2⟩)
    · exact Or.inr (Or.inr ⟨h.symm, h2⟩)
  · exact Or.inr (Or.inl h)

/-- The relation `lexLe` is transitive. -/
theorem lexLe_trans {p q r : Nat × ℚ} (h1 : lexLe p q) (h2 : lexLe q r) : lexLe p r := by
  unfold lexLe at h1 h2 ⊢
  rcases h1 with h1 | ⟨h1, h1'⟩
  · rcases h2 with h2 | ⟨h2, _⟩
    · exact Or.inl (h1.trans h2)
    · exact Or.inl (h2 ▸ h1)
  · rcases h2 with h2 | ⟨h2, h2'⟩
    · exact Or.inl (h1 ▸ h2)
    · exact Or.inr ⟨h1.trans h2, h1'.trans h2'⟩

/-- The `sortByKeyDesc` output is weakly descending in the key. -/
theorem sortByKeyDesc_sorted (key : α → Nat) (l : List α) :
    (sortByKeyDesc key l).Sorted (fun a b => key b ≤ key a) := by
  haveI : IsTotal α (fun a b => key b ≤ key a) := ⟨fun a b => le_total (key b) (key a)⟩
  haveI : IsTrans α (fun a b => key b ≤ key a) := ⟨fun _ _ _ h1 h2 => le_trans h2 h1⟩
  exact List.sorted_insertionSort _ l

/-- The `sortByKeyDesc` output is a permutation of the input. -/
theorem sortByKeyDesc_perm (key : α → Nat) (l : List α) :
    List.Perm (sortByKeyDesc key l) l :=
  List.perm_insertionSort _ l

/-- The `sortStrings` output is weakly ascending. -/
theorem sortStrings_sorted (l : List String) :
    (sortStrings l).Sorted (fun a b => a ≤ b) := by
  haveI : IsTotal String (fun a b : String => a ≤ b) := ⟨fun a b => le_total a b⟩
  haveI : IsTrans String (fun a b : String => a ≤ b) := ⟨fun _ _ _ h1 h2 => le_trans h1 h2⟩
  exact List.sorted_insertionSort _ l

/-- The `sortStrings` output is a permutation of the input. -/
theorem sortStrings_perm (l : List String) : List.Perm (sortStrings l) l :=
  List.perm_insertionSort _ l

/-- A prefix of `s` is still a prefix after extending `s` on the right. -/
theorem isPrefixOf_append_right (p : List Char) :
    ∀ (s m : List Char), p.isPrefixOf s = true → p.isPrefixOf (s ++ m) = true := by
  induction p with
  | nil => intro s m _; simp [List.isPrefixOf]
  | cons a p ih =>
    intro s m h
    cases s with
    | nil => simp [List.isPrefixOf] at h
    | cons b t =>
      simp only [List.cons_append, List.isPrefixOf, Bool.and_eq_true] at h ⊢
      exact ⟨h.1, ih t m h.2⟩

/-- A substring occurrence survives extending the string on the right. -/
theorem containsSub_append_right (pat : List Char) :
    ∀ (s m : List Char), containsSub pat s = true → containsSub pat (s ++ m) = true := by
  intro s
  induction s with
  | nil =>
    intro m h
    simp only [containsSub] at h
    cases m with
    | nil => simpa [containsSub] using h
    | cons b t =>
      simp only [List.nil_append, containsSub, Bool.or_eq_true]
      exact Or.inl (isPrefixOf_append_right pat [] (b :: t) h)
  | cons a t ih =>
    intro m h
    simp only [containsSub, Bool.or_eq_true] at h
    simp only [List.cons_append, containsSub, Bool.or_eq_true]
    rcases h with h | h
    · exact Or.inl (isPrefixOf_append_right pat (a :: t) m h)
    · exact Or.inr (ih m h)

/-- A substring occurrence survives extending the string on the left. -/
theorem containsSub_append_left (pat : List Char) :
    ∀ (m s : List Char), containsSub pat s = true → containsSub pat (m ++ s) = true := by
  intro m
  induction m with
  | nil => intro s h; simpa using h
  | cons a t ih =>
    intro s h
    simp only [List.cons_append, containsSub, Bool.or_eq_true]
    exact Or.inr (ih s h)

/-- A filename that does not exist leaves the record unchanged. -/
theorem depStep_of_none (dep : DepFs) (r : DepResult) (n : String)
    (h : lookupDep dep n = none) : depStep dep r n = r := by
  simp [depStep, h]

/-- A filename that exists overwrites `has_lock_file` with
`'lock' in fname`, whatever `getmtime` does. -/
theorem depStep_flag_of_some (dep : DepFs) (r : DepResult) (n : String) (v : Option Int)
    (h : lookupDep dep n = some v) :
    (depStep dep r n).has_lock_file = containsSub "lock".toList n.toList := by
  cases v <;> simp [depStep, h]

/-- Age bookkeeping of one existing filename: unchanged when `getmtime`
fails, otherwise the running minimum is updated. -/
theorem depStep_age_of_some (dep : DepFs) (r : DepResult) (n : String) (v : Option Int)
    (h : lookupDep dep n = some v) :
    (depStep dep r n).lock_file_age_days =
      match v with
      | none => r.lock_file_age_days
      | some a => updMin r.lock_file_age_days a := by
  cases v with
  | none => simp [depStep, h]
  | some a => cases hm : r.lock_file_age_days <;> simp [depStep, h, updMin, hm]

/-- The folded `has_lock_file` flag is the `'lock' in fname` test of the
last existing filename (last-write-wins). -/
theorem depFold_flag (dep : DepFs) :
    ∀ (names : List String) (r : DepResult),
      (names.foldl (depStep dep) r).has_lock_file =
        match (names.filter (fun n => (lookupDep dep n).isSome)).getLast? with
        | some n => containsSub "lock".toList n.toList
        | none => r.has_lock_file := by
  intro names
  induction names using List.reverseRecOn with
  | nil => intro r; rfl
  | append_singleton l a ih =>
    intro r
    rw [List.foldl_append, List.filter_append]
    simp only [List.foldl_cons, List.foldl_nil]
    cases h : lookupDep dep a with
    | none =>
      rw [depStep_of_none dep _ a h, ih r]
      simp [h]
    | some v =>
      rw [depStep_flag_of_some dep _ a v h]
      simp [h, List.getLast?_concat]

/-- The folded running minimum is the `updMin` fold of the readable
ages, in check order. -/
theorem depFold_age (dep : DepFs) :
    ∀ (names : List String) (r : DepResult),
      (names.foldl (depStep dep) r).lock_file_age_days =
        (names.filterMap (fun n => (lookupDep dep n).bind (fun x => x))).foldl updMin
          r.lock_file_age_days := by
  intro names
  induction names using List.reverseRecOn with
  | nil => intro r; rfl
  | append_singleton l a ih =>
    intro r
    rw [List.foldl_append, List.filterMap_append, List.foldl_append]
    simp only [List.foldl_cons, List.foldl_nil]
    cases h : lookupDep dep a with
    | none =>
      rw [depStep_of_none dep _ a h, ih r]
      simp [h]
    | some v =>
      rw [depStep_age_of_some dep _ a v h]
      cases v with
      | none => rw [ih r]; simp [h]
      | some w => rw [ih r]; simp [h]

/-- Folding `updMin` from a `some` start is the plain `min` fold. -/
theorem foldl_updMin_some :
    ∀ (l : List Int) (x : Int), l.foldl updMin (some x) = some (l.foldl min x) := by
  intro l
  induction l with
  | nil => intro x; rfl
  | cons a t ih =>
    intro x
    show t.foldl updMin (updMin (some x) a) = some ((a :: t).foldl min x)
    have hu : updMin (some x) a = some (min x a) := by
      have hdef : updMin (some x) a = if a < x then some a else some x := rfl
      rw [hdef]
      rcases lt_or_le a x with h | h
      · rw [if_pos h, min_eq_right h.le]
      · rw [if_neg (not_lt.mpr h), min_eq_left h]
    rw [hu, ih (min x a)]
    rfl

/-- A `min` fold is a lower bound of its start and of every element. -/
theorem foldl_min_le :
    ∀ (l : List Int) (x : Int), l.foldl min x ≤ x ∧ ∀ b ∈ l, l.foldl min x ≤ b := by
  intro l
  induction l with
  | nil => intro x; exact ⟨le_refl x, by simp⟩
  | cons a t ih =>
    intro x
    have h := ih (min x a)
    refine ⟨le_trans h.1 (min_le_left x a), ?_⟩
    intro b hb
    rcases List.mem_cons.mp hb with rfl | hb
    · exact le_trans h.1 (min_le_right x b)
    · exact h.2 b hb

/-- A `min` fold returns its start or one of the elements. -/
theorem foldl_min_mem :
    ∀ (l : List Int) (x : Int), l.foldl min x = x ∨ l.foldl min x ∈ l := by
  intro l
  induction l with
  | nil => intro x; exact Or.inl rfl
  | cons a t ih =>
    intro x
    rcases ih (min x a) with h | h
    · rcases min_choice x a with hm | hm
      · exact Or.inl (by rw [List.foldl_cons, h, hm])
      · exact Or.inr (by rw [List.foldl_cons, h, hm]; exact List.mem_cons_self a t)
    · exact Or.inr (List.mem_cons_of_mem a h)

/-- Lowercasing distributes over string append. -/
theorem lowerChars_append (a b : String) :
    lowerChars (a ++ b) = lowerChars a ++ lowerChars b := by
  unfold lowerChars
  rw [show (a ++ b).toList = a.toList ++ b.toList from rfl, List.map_append]

/-- A root path classified as a test path makes every joined path a
test path as well. -/
theorem isTestPath_join (repoPath rel : String) (h : isTestPath repoPath = true) :
    isTestPath (pathJoin repoPath rel) = true := by
  unfold isTestPath at h ⊢
  have hsplit : lowerChars (pathJoin repoPath rel) =
      (lowerChars repoPath ++ lowerChars "/") ++ lowerChars rel := by
    unfold pathJoin
    rw [lowerChars_append, lowerChars_append]
  rw [hsplit, Bool.or_eq_true]
  rw [Bool.or_eq_true] at h
  rcases h with h' | h'
  · exact Or.inl (containsSub_append_right _ _ _ (containsSub_append_right _ _ _ h'))
  · exact Or.inr (containsSub_append_right _ _ _ (containsSub_append_right _ _ _ h'))

-- ## Claim theorems

/-- C1: for every invocation of `analyze`, the returned `DebtResult`
satisfies `total_hours` equal to the exact sum of `estimated_hours`
over all six `DebtCategory` values in its `categories` mapping. -/
theorem C1_total_hours_eq_sum (path : String) (files : List PyFile) (dep : DepFs)
    (now : Int) (ts : String) :
    (analyzeFull path files dep now ts).total_hours =
      ((analyzeFull path files dep now ts).categories.map
        (fun p => p.2.estimated_hours)).sum ∧
    (analyzeFull path files dep now ts).categories.length = 6 :=
  ⟨rfl, rfl⟩

/-- C9: two `analyze` calls against the same directory state (same walk
output, same manifest state, same current time) agree on everything
except the recorded timestamp, which is exactly the `ts` argument. -/
theorem C9_idempotent (path : String) (files : List PyFile) (dep : DepFs) (now : Int)
    (ts1 ts2 : String) :
    (analyzeFull path files dep now ts1).categories =
      (analyzeFull path files dep now ts2).categories ∧
    (analyzeFull path files dep now ts1).total_hours =
      (analyzeFull path files dep now ts2).total_hours ∧
    (analyzeFull path files dep now ts1).repo_path =
      (analyzeFull path files dep now ts2).repo_path ∧
    (analyzeFull path files dep now ts1).summary =
      (analyzeFull path files dep now ts2).summary ∧
    (analyzeFull path files dep now ts1).analyzed_at = ts1 :=
  ⟨rfl, rfl, rfl, rfl, rfl⟩

/-- C3 counterexample: on a path that does not resolve to a readable
directory, `analyze` does not raise — the call succeeds, contradicting
the claim that an invalid path is surfaced as an error at the
`analyze()` boundary. -/
theorem C3_counterexample :
    (analyzeExc invalidRepo 0 "2024-01-01T00:00:00").isOk = true :=
  rfl

/-- C3 amended: `analyze` never raises.  For every path it returns a
`DebtResult`; when the path does not resolve to a readable directory
the walk and the manifest probes observe nothing and the result is the
one computed for an empty directory.  (The invalid-path error of the
spec is raised by the CLI layer's `os.path.isdir` check, not here.) -/
theorem C3_analyze_never_raises (r : Repo) (now : Int) (ts : String) :
    (∃ d, analyzeExc r now ts = Except.ok d) ∧
    (r.validDir = false →
      analyzeExc r now ts = Except.ok (analyzeFull r.path [] [] now ts)) := by
  refine ⟨⟨_, rfl⟩, ?_⟩
  intro h
  simp [analyzeExc, walkFiles, depView, h]

/-- C3 witness: the amended theorem applied to the concrete invalid
repository path. -/
theorem C3_witness :
    analyzeExc invalidRepo 0 "t" = Except.ok (analyzeFull "/nonexistent" [] [] 0 "t") :=
  (C3_analyze_never_raises invalidRepo 0 "t").2 rfl

/-- C2 (code bug evaluation): `docstring_pattern` as written in the
source (`^\s*["\']{"3}|^\s*["\']{\'{3}`, with corrupted quantifiers
that make the braces literal) does not match an actual docstring line,
so the documented function `hello` — whose `def` line is immediately
followed by the triple-quoted line `    \"\"\"Say hello.\"\"\"` — is
reported as undocumented. -/
theorem C2_code_bug_eval :
    find_undocumented_code [docOkFile] = [("doc_ok.py", ["hello"])] ∧
    docstringMatch "    \"\"\"Say hello.\"\"\"".toList = false := by
  constructor
  · decide
  · decide

/-- C8 counterexample: two `DebtResult`s holding the same category
mapping entries in different insertion orders.  Both entries share the
composite key `(LOW, 0)`, the stable sort keeps insertion order among
them, and `sorted_categories` returns different sequences — the output
is not independent of the insertion order. -/
theorem C8_counterexample :
    resultAB.sorted_categories ≠ resultBA.sorted_categories ∧
    List.Perm resultAB.categories resultBA.categories := by
  constructor
  · decide
  · decide

/-- C8 amended: `sorted_categories` returns the pairs sorted weakly
descending by the composite key (severity ordinal first, estimated
hours as tie-break) and is a permutation of the mapping; pairs whose
whole key ties retain insertion order (stable sort). -/
theorem C8_amended_sorted (r : DebtResult) :
    r.sorted_categories.Sorted catGe ∧
    List.Perm r.sorted_categories r.categories :=
  ⟨List.sorted_insertionSort catGe r.categories,
   List.perm_insertionSort catGe r.categories⟩

/-- C4 counterexample: two walked files with the same code-line count
above the threshold.  The output repeats the count, so it is not
*strictly* descending. -/
theorem C4_counterexample :
    find_complex_files cxFiles 1 = [("a.py", 2), ("b.py", 2)] ∧
    ¬ (find_complex_files cxFiles 1).Pairwise
        (fun a b : String × Nat => b.2 < a.2) := by
  constructor
  · decide
  · decide

/-- C4 amended: `find_complex_files` output is sorted weakly descending
(non-increasing; ties are adjacent, kept in walk order by the stable
sort), every returned count exceeds the threshold, and the output is a
permutation of exactly the walked code files whose count exceeds the
threshold. -/
theorem C4_complex_files (files : List PyFile) (threshold : Nat) :
    (find_complex_files files threshold).Sorted
      (fun a b : String × Nat => b.2 ≤ a.2) ∧
    (find_complex_files files threshold).all
      (fun p => decide (threshold < p.2)) = true ∧
    List.Perm (find_complex_files files threshold)
      (((files.filter (fun f => is_code_file f.name)).map
          (fun f => (f.relPath, get_lines_of_code f.lines))).filter
        (fun p => decide (threshold < p.2))) := by
  refine ⟨sortByKeyDesc_sorted _ _, ?_, sortByKeyDesc_perm _ _⟩
  rw [List.all_eq_true]
  intro p hp
  have hp' := (sortByKeyDesc_perm (fun p : String × Nat => p.2) _).mem_iff.mp hp
  exact (List.mem_filter.mp hp').2

/-- C5: `find_duplicate_blocks` returns at most 20 groups, sorted
weakly descending by `count`; every returned group has `count ≥ 2` and
`count` equal to the number of recorded occurrences of its fingerprint;
and the file consisting of the 3-line sequence repeated 5 times
consecutively yields at least one group of `count ≥ 2` at block size 5. -/
theorem C5_duplicate_groups :
    (∀ (files : List PyFile) (blockSize : Nat),
      (find_duplicate_blocks files blockSize).length ≤ 20 ∧
      (find_duplicate_blocks files blockSize).Sorted
        (fun g h : DupGroup => h.count ≤ g.count) ∧
      (find_duplicate_blocks files blockSize).all
        (fun g => decide (2 ≤ g.count) && (g.count == g.locations.length)) = true) ∧
    (find_duplicate_blocks [dupExampleFile] 5).any
      (fun g => decide (2 ≤ g.count)) = true := by
  constructor
  · intro files blockSize
    refine ⟨List.length_take_le 20 _, ?_, ?_⟩
    · exact (sortByKeyDesc_sorted (fun g : DupGroup => g.count) _).sublist
        (List.take_sublist 20 _)
    · rw [List.all_eq_true]
      intro g hg
      have hg1 : g ∈ sortByKeyDesc (fun g : DupGroup => g.count)
          (dupGroupsAll files blockSize) :=
        List.take_sublist 20 _ |>.mem hg
      have hg2 : g ∈ dupGroupsAll files blockSize :=
        (sortByKeyDesc_perm (fun g : DupGroup => g.count) _).mem_iff.mp hg1
      have hg3 := List.mem_filter.mp hg2
      have hcount : 1 < g.count := of_decide_eq_true hg3.2
      rcases List.mem_map.mp hg3.1 with ⟨p, _, rfl⟩
      simp only [Bool.and_eq_true, decide_eq_true_eq, beq_iff_eq]
      exact ⟨hcount, trivial⟩
  · decide

/-- C6: `analyze_dependency_age` sets `has_lock_file` to the
`'lock' in fname` test of the *last* existing filename in the fixed
check order (last-write-wins; `false` when nothing exists); sets
`lock_file_age_days` to the minimum age across the existing checked
files (those whose `getmtime` succeeds — an element of the age list
that bounds every element from below, `none` when the list is empty);
and on a directory containing only `requirements.txt` returns
`has_requirements = true` and `has_lock_file = false`. -/
theorem C6_dependency_age :
    (∀ dep : DepFs,
      (analyze_dependency_age dep).has_lock_file = lockOfLast (existingNames dep) ∧
      (∀ a : Int, (analyze_dependency_age dep).lock_file_age_days = some a →
        a ∈ agesOf dep ∧ ∀ b ∈ agesOf dep, a ≤ b) ∧
      (agesOf dep = [] → (analyze_dependency_age dep).lock_file_age_days = none)) ∧
    analyze_dependency_age reqOnly = ⟨true, false, some 10⟩ := by
  constructor
  · intro dep
    have hflag := depFold_flag dep depNames ⟨false, false, none⟩
    have hage := depFold_age dep depNames ⟨false, false, none⟩
    refine ⟨?_, ?_, ?_⟩
    · unfold analyze_dependency_age
      rw [hflag]
      unfold lockOfLast existingNames
      cases (depNames.filter (fun n => (lookupDep dep n).isSome)).getLast? <;> rfl
    · intro a ha
      unfold analyze_dependency_age at ha
      rw [hage] at ha
      unfold agesOf
      cases hl : List.filterMap (fun n => (lookupDep dep n).bind fun x => x) depNames with
      | nil =>
        rw [hl] at ha
        simp at ha
      | cons x t =>
        rw [hl, List.foldl_cons] at ha
        have hstart : updMin (DepResult.lock_file_age_days ⟨false, false, none⟩) x =
            some x := rfl
        rw [hstart, foldl_updMin_some] at ha
        have hav : a = t.foldl min x := (Option.some.injEq _ _ ▸ ha).symm
        constructor
        · rcases foldl_min_mem t x with hm | hm
          · rw [hav, hm]; exact List.mem_cons_self x t
          · rw [hav]; exact List.mem_cons_of_mem x hm
        · intro b hb
          rcases List.mem_cons.mp hb with hbx | hb
          · rw [hav, hbx]; exact (foldl_min_le t x).1
          · rw [hav]; exact (foldl_min_le t x).2 b hb
    · intro h
      unfold analyze_dependency_age
      rw [hage]
      unfold agesOf at h
      rw [h]
      rfl
  · decide

/-- C6 witness: the theorem applied to the `requirements.txt`-only
directory, discharging its hypotheses at age 10. -/
theorem C6_witness :
    (analyze_dependency_age reqOnly).has_lock_file = false ∧
    ((10 : Int) ∈ agesOf reqOnly ∧ ∀ b ∈ agesOf reqOnly, (10 : Int) ≤ b) := by
  have h := C6_dependency_age
  refine ⟨?_, (h.1 reqOnly).2.1 10 (by decide)⟩
  rw [(h.1 reqOnly).1]
  decide

/-- C7: the line classifier of `get_lines_of_code`.  A non-blank line
containing a triple-quote delimiter toggles the flag exactly once and
is excluded, whether opening or closing (so a line containing both
markers is a single net toggle and the state does not return to its
original value); while the flag is set every line is excluded; outside
the region blank lines and lines starting with `#` or `//` after
trimming are excluded; every other line counts; and
`get_lines_of_code` is the fold of this step from `(False, 0)`. -/
theorem C7_line_classifier (flag : Bool) (count : Nat) (line : String) :
    ((trimChars line.toList).isEmpty = false →
      (containsSub tripleDQ (trimChars line.toList) ||
        containsSub tripleSQ (trimChars line.toList)) = true →
      locStep (flag, count) line = (!flag, count)) ∧
    (flag = true → (locStep (flag, count) line).2 = count) ∧
    ((trimChars line.toList).isEmpty = true → locStep (flag, count) line = (flag, count)) ∧
    (flag = false → (trimChars line.toList).isEmpty = false →
      (containsSub tripleDQ (trimChars line.toList) ||
        containsSub tripleSQ (trimChars line.toList)) = false →
      (['#'].isPrefixOf (trimChars line.toList) ||
        ['/', '/'].isPrefixOf (trimChars line.toList)) = true →
      locStep (flag, count) line = (flag, count)) ∧
    (flag = false → (trimChars line.toList).isEmpty = false →
      (containsSub tripleDQ (trimChars line.toList) ||
        containsSub tripleSQ (trimChars line.toList)) = false →
      (['#'].isPrefixOf (trimChars line.toList) ||
        ['/', '/'].isPrefixOf (trimChars line.toList)) = false →
      locStep (flag, count) line = (flag, count + 1)) ∧
    (∀ ls : List String, get_lines_of_code (some ls) = (ls.foldl locStep (false, 0)).2) := by
  refine ⟨?_, ?_, ?_, ?_, ?_, fun ls => rfl⟩
  · intro h1 h2
    have h1n : ¬ ((trimChars line.toList).isEmpty = true) := by rw [h1]; simp
    show (if (trimChars line.toList).isEmpty = true then (flag, count)
      else if (containsSub tripleDQ (trimChars line.toList) ||
          containsSub tripleSQ (trimChars line.toList)) = true then (!flag, count)
      else if flag = true then (flag, count)
      else if (['#'].isPrefixOf (trimChars line.toList) ||
          ['/', '/'].isPrefixOf (trimChars line.toList)) = true then (flag, count)
      else (flag, count + 1)) = (!flag, count)
    rw [if_neg h1n, if_pos h2]
  · intro h
    subst h
    simp only [locStep]
    split
    · rfl
    · split
      · rfl
      · rfl
  · intro h
    show (if (trimChars line.toList).isEmpty = true then (flag, count)
      else if (containsSub tripleDQ (trimChars line.toList) ||
          containsSub tripleSQ (trimChars line.toList)) = true then (!flag, count)
      else if flag = true then (flag, count)
      else if (['#'].isPrefixOf (trimChars line.toList) ||
          ['/', '/'].isPrefixOf (trimChars line.toList)) = true then (flag, count)
      else (flag, count + 1)) = (flag, count)
    rw [if_pos h]
  · intro hf h1 h2 h3
    subst hf
    have h1n : ¬ ((trimChars line.toList).isEmpty = true) := by rw [h1]; simp
    have h2n : ¬ ((containsSub tripleDQ (trimChars line.toList) ||
        containsSub tripleSQ (trimChars line.toList)) = true) := by rw [h2]; simp
    show (if (trimChars line.toList).isEmpty = true then ((false : Bool), count)
      else if (containsSub tripleDQ (trimChars line.toList) ||
          containsSub tripleSQ (trimChars line.toList)) = true then (!(false : Bool), count)
      else if (false : Bool) = true then ((false : Bool), count)
      else if (['#'].isPrefixOf (trimChars line.toList) ||
          ['/', '/'].isPrefixOf (trimChars line.toList)) = true then ((false : Bool), count)
      else ((false : Bool), count + 1)) = ((false : Bool), count)
    rw [if_neg h1n, if_neg h2n, if_neg (by simp : ¬ ((false : Bool) = true)), if_pos h3]
  · intro hf h1 h2 h3
    subst hf
    have h1n : ¬ ((trimChars line.toList).isEmpty = true) := by rw [h1]; simp
    have h2n : ¬ ((containsSub tripleDQ (trimChars line.toList) ||
        containsSub tripleSQ (trimChars line.toList)) = true) := by rw [h2]; simp
    have h3n : ¬ ((['#'].isPrefixOf (trimChars line.toList) ||
        ['/', '/'].isPrefixOf (trimChars line.toList)) = true) := by rw [h3]; simp
    show (if (trimChars line.toList).isEmpty = true then ((false : Bool), count)
      else if (containsSub tripleDQ (trimChars line.toList) ||
          containsSub tripleSQ (trimChars line.toList)) = true then (!(false : Bool), count)
      else if (false : Bool) = true then ((false : Bool), count)
      else if (['#'].isPrefixOf (trimChars line.toList) ||
          ['/', '/'].isPrefixOf (trimChars line.toList)) = true then ((false : Bool), count)
      else ((false : Bool), count + 1)) = ((false : Bool), count + 1)
    rw [if_neg h1n, if_neg h2n, if_neg (by simp : ¬ ((false : Bool) = true)), if_neg h3n]

/-- C7 witness: a line containing an opening and a closing triple
quote, classified from outside the region: one net toggle, excluded. -/
theorem C7_witness : locStep (false, 0) "\"\"\"doc\"\"\"" = (true, 0) :=
  (C7_line_classifier false 0 "\"\"\"doc\"\"\"").1 (by decide) (by decide)

/-- C10: `find_untested_code` classifies by the full root-prefixed
path, lowercased: when the repository root's own path contains `test`
or `spec`, every source file is classified as a test file and the
result is empty; every returned relative path joins to a non-test full
path; and the returned list is sorted lexicographically ascending. -/
theorem C10_untested (repoPath : String) (files : List PyFile) :
    (isTestPath repoPath = true → find_untested_code repoPath files = []) ∧
    (find_untested_code repoPath files).Sorted (fun a b : String => a ≤ b) ∧
    (∀ p ∈ find_untested_code repoPath files,
      isTestPath (pathJoin repoPath p) = false) := by
  refine ⟨?_, sortStrings_sorted _, ?_⟩
  · intro h
    have hs : (codeFilesOf files).filter
        (fun f => !isTestPath (pathJoin repoPath f.relPath)) = [] := by
      rw [List.filter_eq_nil_iff]
      intro f _
      rw [isTestPath_join repoPath f.relPath h]
      simp
    unfold find_untested_code sourceRelsOf
    rw [hs]
    rfl
  · intro p hp
    have hp1 : p ∈ (sourceRelsOf repoPath files).filter
        (fun s => !hasTestMatch (testRelsOf repoPath files) s) :=
      (sortStrings_perm _).mem_iff.mp hp
    have hp2 : p ∈ sourceRelsOf repoPath files := (List.mem_filter.mp hp1).1
    unfold sourceRelsOf at hp2
    rcases List.mem_map.mp hp2 with ⟨f, hf, rfl⟩
    have hft := (List.mem_filter.mp hf).2
    simpa using hft

/-- C10 witness: under a root whose own path contains `test` the result
is empty; under a neutral root the same file is returned and its joined
path is not a test path. -/
theorem C10_witness :
    find_untested_code "/home/runner/testbed" [plainFile] = [] ∧
    isTestPath (pathJoin "/tmp/repo" "util.py") = false :=
  ⟨(C10_untested "/home/runner/testbed" [plainFile]).1 (by decide),
   (C10_untested "/tmp/repo" [plainFile]).2.2 "util.py" (by decide)⟩
